import Mathlib

/-
Shallow embedding of `src/indra_db_lite/tables/best_content.py`.

External collaborators are passed in as function parameters:
`unpack` models `indra_db.util.helpers.unpack` (hex-decoded bytes to
decompressed text, failing with `none` on malformed data), `extract`
models `indra.literature.adeft_tools.universal_extract_paragraphs`
(failing with `none` when extraction raises), and `dumps` models
`json.dumps` on a list of strings.

Files are modelled as lists of lines; an absent file is `none`.  The raw
input csv files produced by `abstracts_to_csv_raw` and
`fulltexts_to_csv_raw` have no header (their docstrings: "There is no
header"), so an input file is a plain list of data rows.
`pandas.read_csv` with `skiprows=range(1, n + 1)` skips the 0-indexed
file lines 1 .. n and, since `names=` is passed, treats every remaining
line as data.  `multiprocessing.Pool.map` is modelled as the dispatch of
(index, item) pairs to workers that return (index, result) pairs in an
arbitrary completion order, reassembled by index.
-/

set_option autoImplicit false

/-- Row of the raw abstracts csv produced by `abstracts_to_csv_raw`:
text_ref_id, the two text_content ids, and the hex-encoded compressed
title and abstract payloads. -/
structure AbstractRawRow where
  text_ref_id : Int
  tc_id1 : Int
  tc_id2 : Int
  title : String
  abstract : String
  deriving DecidableEq, Repr

/-- Row of the raw fulltexts csv produced by `fulltexts_to_csv_raw`. -/
structure FulltextRawRow where
  text_ref_id : Int
  tc_id1 : Int
  fulltext : String
  deriving DecidableEq, Repr

/-- Row of the processed output csv: the columns selected by
`chunk[['text_ref_id', 'tc_id1', 'tc_id2', 'text_type', 'content']]`. -/
structure OutRow where
  text_ref_id : Int
  tc_id1 : Int
  tc_id2 : Option Int
  text_type : String
  content : String
  deriving DecidableEq, Repr

/-- One line of the processed output csv file: the header line written by
`DataFrame.to_csv` with `header=True`, or a data row. -/
inductive CsvLine where
  | header : CsvLine
  | data : OutRow → CsvLine
  deriving DecidableEq, Repr

def CsvLine.isHeader : CsvLine → Bool
  | .header => true
  | .data _ => false

/-- The output file on disk: `none` when no file exists at `outpath`. -/
abbrev CsvFile := Option (List CsvLine)

/-- Value of a single hexadecimal digit, as in Python `bytes.fromhex`. -/
def hexDigitVal? (ch : Char) : Option Nat :=
  if '0' ≤ ch ∧ ch ≤ '9' then some (ch.toNat - '0'.toNat)
  else if 'a' ≤ ch ∧ ch ≤ 'f' then some (ch.toNat - 'a'.toNat + 10)
  else if 'A' ≤ ch ∧ ch ≤ 'F' then some (ch.toNat - 'A'.toNat + 10)
  else none

/-- Model of Python `bytes.fromhex` on a contiguous hex string: pairs of
hex digits become bytes; an odd length or a non-hex character raises
(`none`). -/
def bytesFromHexChars : List Char → Option (List Nat)
  | [] => some []
  | [_] => none
  | c1 :: c2 :: rest =>
    match hexDigitVal? c1, hexDigitVal? c2, bytesFromHexChars rest with
    | some hi, some lo, some bs => some ((16 * hi + lo) :: bs)
    | _, _, _ => none

def bytesFromHex (s : String) : Option (List Nat) :=
  bytesFromHexChars s.data

/-- Map a fallible function over a list, failing if it fails on any
element; models a column-wise `Series.apply` whose function may raise. -/
def mapOption {α β : Type} (f : α → Option β) : List α → Option (List β)
  | [] => some []
  | a :: as =>
    match f a, mapOption f as with
    | some b, some bs => some (b :: bs)
    | _, _ => none

/-- Worker results of a `Pool.map` call, as (index, result) pairs listed
in the order the workers completed. -/
def poolCollect {α β : Type} (f : α → Option β) (items : List α)
    (order : List Nat) : List (Nat × Option β) :=
  order.map (fun i => (i, (items.get? i).bind f))

/-- Model of `multiprocessing.Pool.map`: reassemble the workers' results
by index, in the original item order; a worker that raised (returned
`none`) makes the whole call raise. -/
def poolMap {α β : Type} (f : α → Option β) (items : List α)
    (order : List Nat) : Option (List β) :=
  mapOption
    (fun j =>
      ((poolCollect f items order).find? (fun p => p.1 == j)).bind
        (fun p => p.2))
    (List.range items.length)

/-- Fuel-driven worker for `chunksOf`; the fuel is the list length, so
the zero-fuel nonempty case is unreachable. -/
def chunksOfGo {α : Type} (c : Nat) : Nat → List α → List (List α)
  | _, [] => []
  | 0, a :: as => [a :: as]
  | fuel + 1, a :: as =>
    (a :: as.take (c - 1)) :: chunksOfGo c fuel (as.drop (c - 1))

/-- Split a list into consecutive chunks of `c` rows (the last chunk may
be shorter), as the `chunksize` argument of `pandas.read_csv` does. -/
def chunksOf {α : Type} (c : Nat) (l : List α) : List (List α) :=
  chunksOfGo c l.length l

def readRowsAux {α : Type} (keep : Nat → Bool) : Nat → List α → List α
  | _, [] => []
  | i, a :: as =>
    if keep i then a :: readRowsAux keep (i + 1) as
    else readRowsAux keep (i + 1) as

/-- Model of `pandas.read_csv(inpath, skiprows=range(1, n + 1), names=...)`
on the headerless raw input file: 0-indexed file lines 1 .. n are
skipped, every other line (line 0 included) is a data row. -/
def read_csv_rows {α : Type} (num_processed_rows : Nat) (input : List α) :
    List α :=
  readRowsAux (fun i => decide (i = 0 ∨ num_processed_rows < i)) 0 input

/-- Model of `DataFrame.to_csv(outpath, mode='a', header=not
os.path.exists(outpath))`: the header is written only when the file does
not exist at the moment of this call. -/
def to_csv_append (file : CsvFile) (rows : List OutRow) : CsvFile :=
  match file with
  | none => some (CsvLine.header :: rows.map CsvLine.data)
  | some ls => some (ls ++ rows.map CsvLine.data)

/-- Model of `_get_line_count`: `wc -l` on the output file (the csv ends
with a trailing newline, so this is the number of lines, header
included). -/
def _get_line_count (ls : List CsvLine) : Nat :=
  ls.length

/-- Model of `_extract_then_dump`:
`json.dumps(universal_extract_paragraphs(unpack(bytes.fromhex(h))))`. -/
def _extract_then_dump (unpack : List Nat → Option String)
    (extract : String → Option (List String))
    (dumps : List String → String) (hex_string : String) : Option String :=
  ((bytesFromHex hex_string).bind unpack).bind fun s =>
    (extract s).map dumps

/-- Per-chunk body of the loop in `process_raw_abstracts_csv`: the
abstract column then the title column are hex-decoded and unpacked
(column-wise `apply`), the text_type column is set to "abstract", and
content is `json.dumps([title, abstract])` row by row. -/
def processAbstractChunk (unpack : List Nat → Option String)
    (dumps : List String → String) (chunk : List AbstractRawRow) :
    Option (List OutRow) :=
  match mapOption (fun r => (bytesFromHex r.abstract).bind unpack) chunk with
  | none => none
  | some abstracts =>
    match mapOption (fun r => (bytesFromHex r.title).bind unpack) chunk with
    | none => none
    | some titles =>
      some ((chunk.zip (titles.zip abstracts)).map fun p =>
        { text_ref_id := p.1.text_ref_id
          tc_id1 := p.1.tc_id1
          tc_id2 := some p.1.tc_id2
          text_type := "abstract"
          content := dumps [p.2.1, p.2.2] })

/-- Per-chunk body of the loop in `process_raw_fulltexts_csv`:
`pool.map(_extract_then_dump, chunk.fulltext)` with worker completion
order `order`, then tc_id2 is set to None and text_type to "fulltext". -/
def processFulltextChunk (unpack : List Nat → Option String)
    (extract : String → Option (List String))
    (dumps : List String → String) (order : List Nat)
    (chunk : List FulltextRawRow) : Option (List OutRow) :=
  match poolMap (_extract_then_dump unpack extract dumps)
      (chunk.map (fun r => r.fulltext)) order with
  | none => none
  | some contents =>
    some ((chunk.zip contents).map fun p =>
      { text_ref_id := p.1.text_ref_id
        tc_id1 := p.1.tc_id1
        tc_id2 := none
        text_type := "fulltext"
        content := p.2 })

/-- The per-chunk loop shared by both processing functions: transform the
chunk (the chunk index selects the worker completion order), append on
success, halt with the error surfaced (`true`) on failure, leaving the
file as it was before the failing chunk. -/
def runChunks {ρ : Type} (tf : Nat → List ρ → Option (List OutRow)) :
    Nat → List (List ρ) → CsvFile → CsvFile × Bool
  | _, [], file => (file, false)
  | k, c :: rest, file =>
    match tf k c with
    | none => (file, true)
    | some rows => runChunks tf (k + 1) rest (to_csv_append file rows)

/-- Model of `process_raw_fulltexts_csv`.  `orders k` is the worker
completion order of the `Pool.map` call for chunk `k`; `file0` is the
file at `outpath` when the call starts.  Returns the resulting file and
whether the run halted with an error. -/
def process_raw_fulltexts_csv (unpack : List Nat → Option String)
    (extract : String → Option (List String))
    (dumps : List String → String) (orders : Nat → List Nat)
    (chunksize : Nat) (restart : Bool) (input : List FulltextRawRow)
    (file0 : CsvFile) : CsvFile × Bool :=
  -- num_processed_rows = 0; reassigned only when outpath exists and
  -- restart is set; otherwise an existing file is removed.
  let num_processed_rows : Nat :=
    match file0 with
    | some ls => if restart then _get_line_count ls else 0
    | none => 0
  let file1 : CsvFile :=
    match file0 with
    | some _ => if restart then file0 else none
    | none => none
  runChunks
    (fun k c => processFulltextChunk unpack extract dumps (orders k) c) 0
    (chunksOf chunksize (read_csv_rows num_processed_rows input)) file1

/-- Model of `process_raw_abstracts_csv`.  Unlike
`process_raw_fulltexts_csv`, the source never initialises
`num_processed_rows`: it is assigned only on the exists-and-restart
branch, so it is modelled as an `Option Nat` that is `none` when the
variable is still unassigned at the point `pd.read_csv` evaluates
`skiprows=range(1, num_processed_rows + 1)`.  Reading the unassigned
local raises `UnboundLocalError` there: the run halts (`true`) before
any input row is read, with the file already removed on the
exists-without-restart branch. -/
def process_raw_abstracts_csv (unpack : List Nat → Option String)
    (dumps : List String → String) (chunksize : Nat) (restart : Bool)
    (input : List AbstractRawRow) (file0 : CsvFile) : CsvFile × Bool :=
  let num_processed_rows : Option Nat :=
    match file0 with
    | some ls => if restart then some (_get_line_count ls) else none
    | none => none
  let file1 : CsvFile :=
    match file0 with
    | some _ => if restart then file0 else none
    | none => none
  match num_processed_rows with
  | none => (file1, true)
  | some n =>
    runChunks (fun _ c => processAbstractChunk unpack dumps c) 0
      (chunksOf chunksize (read_csv_rows n input)) file1

example : bytesFromHex "00ff" = some [0, 255] := by decide
example : read_csv_rows 3 [10, 11, 12, 13, 14] = [10, 14] := by decide
example : chunksOf 2 [1, 2, 3, 4, 5] = [[1, 2], [3, 4], [5]] := by decide

/-! Helper lemmas about the embedding. -/

theorem mapOption_eq_some_map {α β : Type} (f : α → Option β) (g : α → β) :
    ∀ l : List α, (∀ a ∈ l, f a = some (g a)) →
      mapOption f l = some (l.map g)
  | [], _ => rfl
  | a :: as, h => by
    have ha := h a (List.mem_cons_self a as)
    have ih := mapOption_eq_some_map f g as
      (fun b hb => h b (List.mem_cons_of_mem a hb))
    simp [mapOption, ha, ih]

theorem mapOption_eq_none_of_mem {α β : Type} (f : α → Option β) {a : α} :
    ∀ {l : List α}, a ∈ l → f a = none → mapOption f l = none
  | b :: bs, hmem, hfa => by
    rcases List.mem_cons.mp hmem with heq | htail
    · subst heq
      cases h2 : mapOption f bs <;> simp [mapOption, hfa, h2]
    · have ih := mapOption_eq_none_of_mem f htail hfa
      cases h1 : f b <;> simp [mapOption, h1, ih]

theorem mapOption_map {α β γ : Type} (f : β → Option γ) (h : α → β) :
    ∀ l : List α, mapOption f (l.map h) = mapOption (fun a => f (h a)) l
  | [] => rfl
  | a :: as => by simp [mapOption, mapOption_map f h as]

theorem find?_map_pair {β : Type} (v : Nat → Option β) (j : Nat) :
    ∀ order : List Nat,
      (order.map (fun i => (i, v i))).find? (fun p => p.1 == j) =
        (order.find? (fun i => i == j)).map (fun i => (i, v i))
  | [] => rfl
  | i :: is => by
    cases hij : (i == j) <;>
      simp [List.find?, hij, find?_map_pair v j is]

theorem find?_beq_of_mem {j : Nat} :
    ∀ {order : List Nat}, j ∈ order →
      order.find? (fun i => i == j) = some j
  | i :: is, hmem => by
    by_cases hij : i = j
    · subst hij
      simp [List.find?]
    · have htail : j ∈ is := by
        rcases List.mem_cons.mp hmem with h | h
        · exact absurd h.symm hij
        · exact h
      have hbeq : (i == j) = false := by
        simp [hij]
      simp [List.find?, hbeq, find?_beq_of_mem htail]

theorem mapOption_range_get {α β : Type} (f : α → Option β) :
    ∀ (items : List α) (g : Nat → Option β),
      (∀ j, g j = (items.get? j).bind f) →
      mapOption g (List.range items.length) = mapOption f items
  | [], _, _ => rfl
  | a :: as, g, hg => by
    rw [List.length_cons, List.range_succ_eq_map]
    have h0 : g 0 = f a := by rw [hg 0]; rfl
    have htail : mapOption g ((List.range as.length).map Nat.succ) =
        mapOption f as := by
      rw [mapOption_map]
      exact mapOption_range_get f as (fun j => g (Nat.succ j))
        (fun j => by
          show g (Nat.succ j) = (as.get? j).bind f
          rw [hg (Nat.succ j)]
          rfl)
    simp only [mapOption]
    rw [h0, htail]

theorem poolMap_perm {α β : Type} (f : α → Option β) (items : List α)
    (order : List Nat) (hperm : order.Perm (List.range items.length)) :
    poolMap f items order = mapOption f items := by
  unfold poolMap poolCollect
  apply mapOption_range_get
  intro j
  rw [find?_map_pair (fun i => (items.get? i).bind f) j order]
  by_cases hj : j ∈ order
  · rw [find?_beq_of_mem hj]
    rfl
  · have hnone : order.find? (fun i => i == j) = none := by
      rw [List.find?_eq_none]
      intro i hi
      simp only [beq_iff_eq]
      intro heq
      exact hj (heq ▸ hi)
    have hrange : ¬ j ∈ List.range items.length :=
      fun hmem => hj (hperm.mem_iff.mpr hmem)
    have hlen : items.length ≤ j := by
      by_contra hlt
      exact hrange (List.mem_range.mpr (Nat.lt_of_not_le hlt))
    rw [hnone, List.get?_eq_none.mpr hlen]
    rfl

theorem zip_map_pair {α β γ : Type} (f : α → β) (g : α → γ) :
    ∀ l : List α, (l.map f).zip (l.map g) = l.map fun a => (f a, g a)
  | [] => rfl
  | a :: as => by simp [zip_map_pair f g as]

theorem zip_self_map {α β γ : Type} (p : α → β) (k : α × β → γ) :
    ∀ l : List α,
      (l.zip (l.map p)).map k = l.map fun a => k (a, p a)
  | [] => rfl
  | a :: as => by simp [zip_self_map p k as]

theorem chunksOfGo_flatten {α : Type} (c : Nat) :
    ∀ (fuel : Nat) (l : List α), (chunksOfGo c fuel l).flatten = l
  | _, [] => by simp [chunksOfGo]
  | 0, _ :: _ => by simp [chunksOfGo]
  | fuel + 1, a :: as => by
    simp [chunksOfGo, chunksOfGo_flatten c fuel (as.drop (c - 1))]

theorem chunksOf_flatten {α : Type} (c : Nat) (l : List α) :
    (chunksOf c l).flatten = l :=
  chunksOfGo_flatten c l.length l

theorem chunksOf_ne_nil {α : Type} (c : Nat) (a : α) (as : List α) :
    chunksOf c (a :: as) ≠ [] := by
  simp [chunksOf, chunksOfGo]

theorem readRowsAux_keepAll {α : Type} (keep : Nat → Bool)
    (hkeep : ∀ j, keep j = true) :
    ∀ (i : Nat) (l : List α), readRowsAux keep i l = l
  | _, [] => rfl
  | i, a :: as => by
    simp [readRowsAux, hkeep i, readRowsAux_keepAll keep hkeep (i + 1) as]

theorem read_csv_rows_zero {α : Type} (input : List α) :
    read_csv_rows 0 input = input := by
  apply readRowsAux_keepAll
  intro j
  cases j with
  | zero => simp
  | succ n => simp

theorem runChunks_success {ρ : Type}
    (tf : Nat → List ρ → Option (List OutRow)) (rowf : ρ → OutRow) :
    ∀ (cs : List (List ρ)) (k : Nat) (ls : List CsvLine),
      (∀ i c, cs.get? i = some c → tf (k + i) c = some (c.map rowf)) →
      runChunks tf k cs (some ls) =
        (some (ls ++ cs.flatten.map fun r => CsvLine.data (rowf r)), false)
  | [], k, ls, _ => by simp [runChunks]
  | c :: rest, k, ls, h => by
    have h0 : tf k c = some (c.map rowf) := by
      have := h 0 c rfl
      simpa using this
    have ih := runChunks_success tf rowf rest (k + 1)
      (ls ++ (c.map rowf).map CsvLine.data)
      (fun i ci hci => by
        have := h (i + 1) ci (by simpa using hci)
        have hk : k + (i + 1) = k + 1 + i := by omega
        rwa [hk] at this)
    simp only [runChunks, h0, to_csv_append]
    rw [ih]
    simp [List.map_append, List.map_map, List.append_assoc, Function.comp]

theorem runChunks_ex {ρ : Type}
    (tf : Nat → List ρ → Option (List OutRow))
    (hs : ∀ k c, ∃ rows, tf k c = some rows) :
    ∀ (cs : List (List ρ)) (k : Nat) (ls : List CsvLine),
      ∃ ds, runChunks tf k cs (some ls) = (some (ls ++ ds), false) ∧
        ds.countP CsvLine.isHeader = 0
  | [], k, ls => ⟨[], by simp [runChunks], rfl⟩
  | c :: rest, k, ls => by
    obtain ⟨rows, hrows⟩ := hs k c
    obtain ⟨ds, hds, hcount⟩ :=
      runChunks_ex tf hs rest (k + 1) (ls ++ rows.map CsvLine.data)
    refine ⟨rows.map CsvLine.data ++ ds, ?_, ?_⟩
    · simp only [runChunks, hrows, to_csv_append, hds]
      rw [List.append_assoc]
    · rw [List.countP_append, hcount]
      have : (rows.map CsvLine.data).countP CsvLine.isHeader = 0 := by
        rw [List.countP_eq_zero]
        intro a ha
        obtain ⟨r, _, rfl⟩ := List.mem_map.mp ha
        simp [CsvLine.isHeader]
      rw [this]

theorem processFulltextChunk_map (unpack : List Nat → Option String)
    (extract : String → Option (List String))
    (dumps : List String → String) (order : List Nat)
    (chunk : List FulltextRawRow) (g : FulltextRawRow → String)
    (hperm : order.Perm (List.range chunk.length))
    (hg : ∀ r ∈ chunk,
      _extract_then_dump unpack extract dumps r.fulltext = some (g r)) :
    processFulltextChunk unpack extract dumps order chunk =
      some (chunk.map fun r =>
        { text_ref_id := r.text_ref_id, tc_id1 := r.tc_id1, tc_id2 := none,
          text_type := "fulltext", content := g r }) := by
  unfold processFulltextChunk
  have hlen : (chunk.map fun r => r.fulltext).length = chunk.length := by
    simp
  have hpool : poolMap (_extract_then_dump unpack extract dumps)
      (chunk.map fun r => r.fulltext) order = some (chunk.map g) := by
    rw [poolMap_perm _ _ _ (by rw [hlen]; exact hperm), mapOption_map]
    exact mapOption_eq_some_map _ g chunk hg
  rw [hpool]
  simp only [zip_self_map]

theorem countP_data_map (rows : List OutRow) :
    (rows.map CsvLine.data).countP CsvLine.isHeader = 0 := by
  rw [List.countP_eq_zero]
  intro a ha
  obtain ⟨r, _, rfl⟩ := List.mem_map.mp ha
  simp [CsvLine.isHeader]

theorem runChunks_fresh {ρ : Type}
    (tf : Nat → List ρ → Option (List OutRow)) (rowf : ρ → OutRow)
    (cs : List (List ρ)) (hne : cs ≠ [])
    (h : ∀ i c, cs.get? i = some c → tf i c = some (c.map rowf)) :
    runChunks tf 0 cs none =
      (some (CsvLine.header ::
        cs.flatten.map fun r => CsvLine.data (rowf r)), false) := by
  cases cs with
  | nil => exact absurd rfl hne
  | cons c rest =>
    have h0 : tf 0 c = some (c.map rowf) := h 0 c rfl
    have ih := runChunks_success tf rowf rest 1
      (CsvLine.header :: (c.map rowf).map CsvLine.data)
      (fun i ci hci => by
        have := h (i + 1) ci (by simpa using hci)
        rwa [Nat.add_comm] at this)
    simp only [runChunks, h0, to_csv_append]
    rw [ih]
    simp [List.map_append, List.map_map, List.append_assoc, Function.comp]

/-- C5: every abstracts input row is hex-decoded and unpacked on both
payload columns and emits one output row whose content is the
serialization of [title_text, abstract_text], whose category
(text_type) is "abstract", and whose ids are carried over unchanged. -/
theorem c5_abstract_row_transform (unpack : List Nat → Option String)
    (dumps : List String → String) (chunk : List AbstractRawRow)
    (gt ga : AbstractRawRow → String)
    (ht : ∀ r ∈ chunk, (bytesFromHex r.title).bind unpack = some (gt r))
    (ha : ∀ r ∈ chunk, (bytesFromHex r.abstract).bind unpack = some (ga r)) :
    processAbstractChunk unpack dumps chunk =
      some (chunk.map fun r =>
        { text_ref_id := r.text_ref_id, tc_id1 := r.tc_id1,
          tc_id2 := some r.tc_id2, text_type := "abstract",
          content := dumps [gt r, ga r] }) := by
  unfold processAbstractChunk
  simp only [mapOption_eq_some_map _ ga chunk ha,
    mapOption_eq_some_map _ gt chunk ht]
  rw [zip_map_pair gt ga chunk, zip_self_map]

def uEx : List Nat → Option String := fun bs =>
  if bs = [0] then some "Title A"
  else if bs = [1] then some "Abstract A"
  else none

def dEx : List String → String := String.intercalate "|"

def aRowEx : AbstractRawRow := ⟨7, 101, 102, "00", "01"⟩

theorem c5_witness :
    processAbstractChunk uEx dEx [aRowEx] =
      some [{ text_ref_id := 7, tc_id1 := 101, tc_id2 := some 102,
              text_type := "abstract",
              content := "Title A|Abstract A" }] := by
  have h := c5_abstract_row_transform uEx dEx [aRowEx]
    (fun _ => "Title A") (fun _ => "Abstract A")
    (by intro r hr; simp at hr; subst hr; decide)
    (by intro r hr; simp at hr; subst hr; decide)
  rw [h]
  decide

theorem processFulltextChunk_of_parts (unpack : List Nat → Option String)
    (extract : String → Option (List String))
    (dumps : List String → String) (order : List Nat)
    (chunk : List FulltextRawRow) (g : FulltextRawRow → List String)
    (hperm : order.Perm (List.range chunk.length))
    (hg : ∀ r ∈ chunk, ∃ bs s, bytesFromHex r.fulltext = some bs ∧
      unpack bs = some s ∧ extract s = some (g r)) :
    processFulltextChunk unpack extract dumps order chunk =
      some (chunk.map fun r =>
        { text_ref_id := r.text_ref_id, tc_id1 := r.tc_id1, tc_id2 := none,
          text_type := "fulltext", content := dumps (g r) }) := by
  apply processFulltextChunk_map unpack extract dumps order chunk
    (fun r => dumps (g r)) hperm
  intro r hr
  obtain ⟨bs, s, h1, h2, h3⟩ := hg r hr
  simp [_extract_then_dump, h1, h2, h3]

/-- C6: every fulltext input row is hex-decoded, unpacked and run through
paragraph extraction, and emits one output row whose content is the
serialization of the paragraph list, whose category (text_type) is
"fulltext", and whose secondary content id is absent (none). -/
theorem c6_fulltext_row_transform (unpack : List Nat → Option String)
    (extract : String → Option (List String))
    (dumps : List String → String) (order : List Nat)
    (chunk : List FulltextRawRow) (g : FulltextRawRow → List String)
    (hperm : order.Perm (List.range chunk.length))
    (hg : ∀ r ∈ chunk, ∃ bs s, bytesFromHex r.fulltext = some bs ∧
      unpack bs = some s ∧ extract s = some (g r)) :
    processFulltextChunk unpack extract dumps order chunk =
      some (chunk.map fun r =>
        { text_ref_id := r.text_ref_id, tc_id1 := r.tc_id1, tc_id2 := none,
          text_type := "fulltext", content := dumps (g r) }) :=
  processFulltextChunk_of_parts unpack extract dumps order chunk g hperm hg

def uEx2 : List Nat → Option String := fun bs =>
  if bs = [2] then some "<xml>" else none

def eEx2 : String → Option (List String) := fun s =>
  if s = "<xml>" then some ["Para1", "Para2"] else none

def ftRowEx : FulltextRawRow := ⟨9, 55, "02"⟩

theorem c6_witness :
    processFulltextChunk uEx2 eEx2 dEx [0] [ftRowEx] =
      some [{ text_ref_id := 9, tc_id1 := 55, tc_id2 := none,
              text_type := "fulltext", content := "Para1|Para2" }] := by
  have h := c6_fulltext_row_transform uEx2 eEx2 dEx [0] [ftRowEx]
    (fun _ => ["Para1", "Para2"]) (by decide)
    (by intro r hr; simp at hr; subst hr
        exact ⟨[2], "<xml>", by decide, by decide, by decide⟩)
  rw [h]
  decide

/-- C7: a chunk containing a row whose hex-decoding, decompression or
paragraph extraction fails writes zero rows: the whole-chunk transform
returns the error before any append, the file is unchanged and the run
halts with the error surfaced, in both the fulltext and the abstracts
pipelines. -/
theorem c7_failing_row_aborts_chunk (unpack : List Nat → Option String)
    (extract : String → Option (List String))
    (dumps : List String → String) (orders : Nat → List Nat)
    (fchunk : List FulltextRawRow) (frest : List (List FulltextRawRow))
    (ffile : CsvFile) (achunk : List AbstractRawRow)
    (arest : List (List AbstractRawRow)) (afile : CsvFile)
    (hperm : (orders 0).Perm (List.range fchunk.length))
    (hffail : ∃ r ∈ fchunk,
      _extract_then_dump unpack extract dumps r.fulltext = none)
    (hafail : ∃ r ∈ achunk, (bytesFromHex r.abstract).bind unpack = none ∨
      (bytesFromHex r.title).bind unpack = none) :
    runChunks (fun k c => processFulltextChunk unpack extract dumps
        (orders k) c) 0 (fchunk :: frest) ffile = (ffile, true) ∧
    runChunks (fun _ c => processAbstractChunk unpack dumps c) 0
      (achunk :: arest) afile = (afile, true) := by
  constructor
  · have hnone : processFulltextChunk unpack extract dumps (orders 0)
        fchunk = none := by
      unfold processFulltextChunk
      obtain ⟨r, hr, hfail⟩ := hffail
      have hpool : poolMap (_extract_then_dump unpack extract dumps)
          (fchunk.map fun r => r.fulltext) (orders 0) = none := by
        rw [poolMap_perm _ _ _ (by simpa using hperm), mapOption_map]
        exact mapOption_eq_none_of_mem _ hr hfail
      rw [hpool]
    simp [runChunks, hnone]
  · have hnone : processAbstractChunk unpack dumps achunk = none := by
      unfold processAbstractChunk
      obtain ⟨r, hr, hfail | hfail⟩ := hafail
      · rw [mapOption_eq_none_of_mem _ hr hfail]
      · rw [mapOption_eq_none_of_mem
          (fun r => (bytesFromHex r.title).bind unpack) hr hfail]
        cases habs : mapOption
          (fun r => (bytesFromHex r.abstract).bind unpack) achunk <;> rfl
    simp [runChunks, hnone]

theorem c7_witness :
    runChunks (fun k c => processFulltextChunk (fun _ => none) eEx2 dEx
        ((fun _ => [0]) k) c) 0 [[ftRowEx]] none = (none, true) ∧
    runChunks (fun _ c => processAbstractChunk (fun _ => none) dEx c) 0
      [[aRowEx]] (some [CsvLine.header]) = (some [CsvLine.header], true) :=
  c7_failing_row_aborts_chunk (fun _ => none) eEx2 dEx (fun _ => [0])
    [ftRowEx] [] none [aRowEx] [] (some [CsvLine.header])
    (by decide) ⟨ftRowEx, by decide, by decide⟩
    ⟨aRowEx, by decide, Or.inl (by decide)⟩

/-- C8: in a fresh run (no pre-existing output file) with two or more
chunk writes, the header line is written exactly once, by the first
chunk write; all lines after it are data lines. -/
theorem c8_header_written_once {ρ : Type}
    (tf : Nat → List ρ → Option (List OutRow)) (cs : List (List ρ))
    (h2 : 2 ≤ cs.length) (hs : ∀ k c, ∃ rows, tf k c = some rows) :
    ∃ rest, (runChunks tf 0 cs none).1 = some (CsvLine.header :: rest) ∧
      rest.countP CsvLine.isHeader = 0 ∧
      (runChunks tf 0 cs none).2 = false := by
  cases cs with
  | nil => simp at h2
  | cons c cs' =>
    obtain ⟨rows0, h0⟩ := hs 0 c
    obtain ⟨ds, hds, hcount⟩ := runChunks_ex tf hs cs' 1
      (CsvLine.header :: rows0.map CsvLine.data)
    have hrun : runChunks tf 0 (c :: cs') none =
        (some ((CsvLine.header :: rows0.map CsvLine.data) ++ ds), false) := by
      simp only [runChunks, h0, to_csv_append]
      exact hds
    refine ⟨rows0.map CsvLine.data ++ ds, ?_, ?_, ?_⟩
    · rw [hrun]
      simp [List.cons_append]
    · rw [List.countP_append, hcount, countP_data_map]
    · rw [hrun]

theorem c8_witness :
    ∃ rest, (runChunks (fun _ _ => some ([] : List OutRow)) 0
        ([[], []] : List (List Nat)) none).1 =
      some (CsvLine.header :: rest) ∧
      rest.countP CsvLine.isHeader = 0 ∧
      (runChunks (fun _ _ => some ([] : List OutRow)) 0
        ([[], []] : List (List Nat)) none).2 = false :=
  c8_header_written_once (fun _ _ => some []) [[], []] (by decide)
    (fun _ _ => ⟨[], rfl⟩)

/-- C10: in `process_raw_abstracts_csv` the local `num_processed_rows` is
assigned only on the branch where the output file exists and restart is
true.  When the output file does not exist, or exists with restart
false, the function raises (reading the unassigned local) before any
input row is processed — and in the exists-with-restart-false case the
pre-existing output file has already been removed, so the call destroys
the old output and produces nothing.  Only the exists-with-restart-true
branch goes on to process chunks. -/
theorem c10_unbound_num_processed_rows (unpack : List Nat → Option String)
    (dumps : List String → String) (chunksize : Nat)
    (input : List AbstractRawRow) :
    (∀ restart, process_raw_abstracts_csv unpack dumps chunksize restart
      input none = (none, true)) ∧
    (∀ ls, process_raw_abstracts_csv unpack dumps chunksize false input
      (some ls) = (none, true)) ∧
    (∀ ls, process_raw_abstracts_csv unpack dumps chunksize true input
      (some ls) =
        runChunks (fun _ c => processAbstractChunk unpack dumps c) 0
          (chunksOf chunksize (read_csv_rows (_get_line_count ls) input))
          (some ls)) :=
  ⟨fun _ => rfl, fun _ => rfl, fun _ => rfl⟩

/-- C9: the parallel map collects worker results in the original item
order regardless of worker completion order, and consequently a
non-restart fulltext run writes its output data rows in exactly the
input row order, within and across chunks, with each content value
paired with its own row's ids. -/
theorem c9_output_order_matches_input_order :
    (∀ (α β : Type) (f : α → Option β) (items : List α)
        (order : List Nat), order.Perm (List.range items.length) →
        poolMap f items order = mapOption f items) ∧
    (∀ (unpack : List Nat → Option String)
        (extract : String → Option (List String))
        (dumps : List String → String) (orders : Nat → List Nat)
        (chunksize : Nat) (input : List FulltextRawRow)
        (g : FulltextRawRow → String), input ≠ [] →
        (∀ k c, (chunksOf chunksize input).get? k = some c →
          (orders k).Perm (List.range c.length)) →
        (∀ r ∈ input,
          _extract_then_dump unpack extract dumps r.fulltext = some (g r)) →
        process_raw_fulltexts_csv unpack extract dumps orders chunksize
            false input none =
          (some (CsvLine.header :: input.map fun r => CsvLine.data
            { text_ref_id := r.text_ref_id, tc_id1 := r.tc_id1,
              tc_id2 := none, text_type := "fulltext",
              content := g r }), false)) := by
  constructor
  · intro α β f items order hperm
    exact poolMap_perm f items order hperm
  · intro unpack extract dumps orders chunksize input g hne horders hg
    show runChunks
        (fun k c => processFulltextChunk unpack extract dumps (orders k) c)
        0 (chunksOf chunksize (read_csv_rows 0 input)) none = _
    rw [read_csv_rows_zero]
    have hcs : chunksOf chunksize input ≠ [] := by
      cases input with
      | nil => exact absurd rfl hne
      | cons a as => exact chunksOf_ne_nil chunksize a as
    have hrun := runChunks_fresh
      (fun k c => processFulltextChunk unpack extract dumps (orders k) c)
      (fun r => { text_ref_id := r.text_ref_id, tc_id1 := r.tc_id1,
                  tc_id2 := none, text_type := "fulltext",
                  content := g r })
      (chunksOf chunksize input) hcs
      (fun i c hic => by
        apply processFulltextChunk_map unpack extract dumps (orders i) c g
          (horders i c hic)
        intro r hr
        apply hg
        have hcm : c ∈ chunksOf chunksize input := List.get?_mem hic
        have : r ∈ (chunksOf chunksize input).flatten :=
          List.mem_flatten.mpr ⟨c, hcm, hr⟩
        rwa [chunksOf_flatten] at this)
    rw [hrun, chunksOf_flatten]

theorem c9_witness :
    poolMap (fun n => some (n + 1)) [10, 20, 30] [2, 0, 1] =
      mapOption (fun n => some (n + 1)) [10, 20, 30] ∧
    process_raw_fulltexts_csv uEx2 eEx2 dEx (fun _ => [0]) 1 false
        [ftRowEx] none =
      (some [CsvLine.header, CsvLine.data
        { text_ref_id := 9, tc_id1 := 55, tc_id2 := none,
          text_type := "fulltext", content := "Para1|Para2" }], false) := by
  constructor
  · exact c9_output_order_matches_input_order.1 Nat Nat
      (fun n => some (n + 1)) [10, 20, 30] [2, 0, 1] (by decide)
  · have h := c9_output_order_matches_input_order.2 uEx2 eEx2 dEx
      (fun _ => [0]) 1 [ftRowEx] (fun _ => "Para1|Para2") (by decide)
      (by
        intro k c hkc
        cases k with
        | zero =>
          have : c = [ftRowEx] := by
            simp [chunksOf, chunksOfGo] at hkc
            exact hkc.symm
          subst this
          decide
        | succ n => simp [chunksOf, chunksOfGo] at hkc)
      (by intro r hr; simp at hr; subst hr; decide)
    exact h

/-- Fixtures for the concrete restart-behaviour evaluations: collaborators
that always succeed, a five-row fulltext input, and the corresponding
output rows. -/
def uT : List Nat → Option String := fun _ => some "t"

def eT : String → Option (List String) := fun _ => some []

def dT : List String → String := fun _ => "c"

def ftR (i : Nat) : FulltextRawRow := ⟨i, 10 + i, "00"⟩

def ftO (i : Nat) : OutRow := ⟨i, 10 + i, none, "fulltext", "c"⟩

/-- C1 is false on the code: resuming after 1 complete chunk of size 2
over a 5-row input does not process exactly the not-yet-processed rows.
Because `skiprows=range(1, line_count + 1)` keeps 0-indexed input line 0
and the skipped count includes the output's header line, the resumed run
re-processes input row 0 and never processes input rows 2 and 3: the
final output is rows [0, 1, 0, 4], not [0, 1, 2, 3, 4]. -/
theorem c1_resume_duplicates_and_drops_rows :
    process_raw_fulltexts_csv uT eT dT (fun _ => [0, 1]) 2 true
        [ftR 0, ftR 1, ftR 2, ftR 3, ftR 4]
        (some [CsvLine.header, CsvLine.data (ftO 0),
               CsvLine.data (ftO 1)]) =
      (some [CsvLine.header, CsvLine.data (ftO 0), CsvLine.data (ftO 1),
             CsvLine.data (ftO 0), CsvLine.data (ftO 4)], false) ∧
    [CsvLine.header, CsvLine.data (ftO 0), CsvLine.data (ftO 1),
     CsvLine.data (ftO 0), CsvLine.data (ftO 4)] ≠
      [CsvLine.header, CsvLine.data (ftO 0), CsvLine.data (ftO 1),
       CsvLine.data (ftO 2), CsvLine.data (ftO 3),
       CsvLine.data (ftO 4)] :=
  ⟨by decide, by decide⟩

/-- C2 is false on the code: after a complete fresh run over a 2-row
input, re-running with restart=true appends one more row (a duplicate of
input row 0) instead of zero, because input line 0 is never included in
the skipped range. -/
theorem c2_rerun_appends_duplicate_row :
    process_raw_fulltexts_csv uT eT dT (fun _ => [0, 1]) 2 false
        [ftR 0, ftR 1] none =
      (some [CsvLine.header, CsvLine.data (ftO 0),
             CsvLine.data (ftO 1)], false) ∧
    process_raw_fulltexts_csv uT eT dT (fun _ => [0]) 2 true
        [ftR 0, ftR 1]
        (some [CsvLine.header, CsvLine.data (ftO 0),
               CsvLine.data (ftO 1)]) =
      (some [CsvLine.header, CsvLine.data (ftO 0), CsvLine.data (ftO 1),
             CsvLine.data (ftO 0)], false) ∧
    (some [CsvLine.header, CsvLine.data (ftO 0), CsvLine.data (ftO 1),
           CsvLine.data (ftO 0)] : CsvFile) ≠
      some [CsvLine.header, CsvLine.data (ftO 0), CsvLine.data (ftO 1)] :=
  ⟨by decide, by decide, by decide⟩

/-- C3 is false on the code: with restart=true and an existing output
file of 2 lines (header plus one data row), the call skips 2 input rows
(0-indexed input lines 1 and 2, the full `wc -l` line count including
the header), not line-count-minus-one rows, so only 3 of the 5 input
rows are read — and not the right ones. -/
theorem c3_skip_includes_header_line :
    process_raw_fulltexts_csv uT eT dT (fun _ => [0, 1, 2]) 1000 true
        [ftR 0, ftR 1, ftR 2, ftR 3, ftR 4]
        (some [CsvLine.header, CsvLine.data (ftO 0)]) =
      (some [CsvLine.header, CsvLine.data (ftO 0), CsvLine.data (ftO 0),
             CsvLine.data (ftO 3), CsvLine.data (ftO 4)], false) ∧
    read_csv_rows
        (_get_line_count [CsvLine.header, CsvLine.data (ftO 0)])
        [ftR 0, ftR 1, ftR 2, ftR 3, ftR 4] = [ftR 0, ftR 3, ftR 4] ∧
    ([ftR 0, ftR 3, ftR 4] : List FulltextRawRow).length ≠
      5 - (_get_line_count [CsvLine.header, CsvLine.data (ftO 0)] - 1) :=
  ⟨by decide, by decide, by decide⟩

/-- C4 is false on the code for `process_raw_abstracts_csv`: with
restart=false and an existing output file, the file is deleted and then
the call raises (`num_processed_rows` was never assigned) before
processing any input row, instead of rewriting the output from row 0. -/
theorem c4_abstracts_overwrite_deletes_then_raises :
    process_raw_abstracts_csv uT dT 1000 false
        [aRowEx]
        (some [CsvLine.header, CsvLine.data (ftO 0)]) = (none, true) ∧
    (none : CsvFile) ≠ some [CsvLine.header, CsvLine.data (ftO 0)] :=
  ⟨rfl, by decide⟩
